import Mathlib

/-!
Verification development for the SCPI Command Sender repository.

The program under study is `src/scpi_app/gui/scpi_gui.py` (the entry point
wired up by `src/main.py`) together with the standalone module
`src/scpi_backend.py`.  The definitions below are shallow embeddings of the
relevant Python functions, translated statement by statement:

* Python strings are Lean `String`s; character-level operations
  (`str.strip`, `str.endswith`, `str.split`, `str.isdigit`, `int(...)`)
  are modelled structurally on `String.data` so that they compute.
* The TCP socket is modelled by a behaviour record `Conn` that resolves
  what the two blocking socket calls (`sendall`, `recv`) do when invoked.
* Raised exceptions become `Except.error` values carrying the exception's
  message (`str(e)` of the Python `SCPIError`).
* The worker thread `SCPIWorker.run` becomes a pure function producing the
  ordered trace of its observable effects (socket writes, emitted Qt
  signals, `time.sleep` calls).
-/

/-- Python `s.strip()`: drop whitespace from both ends
(`scpi_gui.py`, used at `response.decode('utf-8').strip()` and
`self.new_cmd_input.text().strip()`). -/
def pyStrip (s : String) : String :=
  ⟨((s.data.dropWhile Char.isWhitespace).reverse.dropWhile Char.isWhitespace).reverse⟩

/-- Python `command.endswith('?')` (`scpi_gui.py` line 69, `scpi_backend.py`
line 70): true iff the literal last character of the string is `?`.
No whitespace trimming is performed by the source. -/
def endsWithQmark (s : String) : Bool :=
  s.data.getLast? == some '?'

/-- Spec-side classification rule, written from the specification's words
(`spec.md` §6: "A command is classified as a query purely by a syntactic
rule: its trailing non-whitespace character is a question mark", the
trim-then-check rule of §8).  Kept separate from `endsWithQmark`, which is
the code's rule, so the two can be compared. -/
def isQuerySpec (s : String) : Bool :=
  (s.data.reverse.dropWhile Char.isWhitespace).head? == some '?'

/-- Outcome of the blocking `self.sock.sendall(...)` call: it either
returns, raises `socket.timeout`, or raises some other socket exception
carrying a message. -/
inductive SendRes where
  | ok
  | timeout
  | exn (msg : String)
deriving DecidableEq

/-- Outcome of the blocking `self.sock.recv(1024)` call: it either returns
a byte string (possibly empty, for an orderly peer close), raises
`socket.timeout`, or raises some other socket exception. -/
inductive RecvRes where
  | bytes (data : String)
  | timeout
  | exn (msg : String)
deriving DecidableEq

/-- Behaviour of the connected socket for one `send_command` invocation:
what `sendall` does and, if a read is attempted, what `recv` does. -/
structure Conn where
  sendRes : SendRes
  recvRes : RecvRes
deriving DecidableEq

deriving instance DecidableEq for Except

/-- Result of one `SCPIInstrument.send_command` call (GUI variant,
`scpi_gui.py` lines 48-80): the returned value or raised `SCPIError`
message, the byte strings written to the socket, the number of `recv`
calls attempted, and the socket handle after the call (the method never
assigns `self.sock`, so the handle is carried through unchanged). -/
structure SendOutcome where
  result : Except String (Option String)
  writes : List String
  reads : Nat
  sockAfter : Option Conn
deriving DecidableEq

/-- Shallow embedding of `SCPIInstrument.send_command` from
`scpi_app/gui/scpi_gui.py` lines 48-80.  `sock = none` models
`self.sock` being `None`.  The query branch returns the decoded,
stripped response when `recv` returned a truthy (non-empty) byte string
and `None` otherwise; the non-query branch returns `None` without any
read.  `socket.timeout` anywhere in the `try` block raises
`SCPIError(f"命令 '{command}' 超时")`; any other exception raises
`SCPIError(f"发送命令 '{command}' 时出错: {e}")`. -/
def send_command (sock : Option Conn) (command : String) : SendOutcome :=
  match sock with
  | none => ⟨Except.error "未连接到上位机", [], 0, none⟩
  | some conn =>
    let full := command ++ "\n"
    match conn.sendRes with
    | SendRes.ok =>
      if endsWithQmark command then
        match conn.recvRes with
        | RecvRes.bytes data =>
            ⟨Except.ok (if data = "" then none else some (pyStrip data)), [full], 1, some conn⟩
        | RecvRes.timeout =>
            ⟨Except.error ("命令 '" ++ command ++ "' 超时"), [full], 1, some conn⟩
        | RecvRes.exn m =>
            ⟨Except.error ("发送命令 '" ++ command ++ "' 时出错: " ++ m), [full], 1, some conn⟩
      else ⟨Except.ok none, [full], 0, some conn⟩
    | SendRes.timeout => ⟨Except.error ("命令 '" ++ command ++ "' 超时"), [], 0, some conn⟩
    | SendRes.exn m => ⟨Except.error ("发送命令 '" ++ command ++ "' 时出错: " ++ m), [], 0, some conn⟩

/-- One observable effect of a `SCPIWorker.run` execution, in order:
a byte string written on the socket (inside `send_command`), the
`command_sent` signal, the `progress_updated` signal, a `time.sleep`
call, the `finished` signal, or the `error_occurred` signal. -/
inductive Ev where
  | wrote (data : String)
  | step (cmd : String) (resp : String) (loopNum : Nat)
  | progress (current : Nat) (total : Int)
  | sleep
  | finished
  | error (msg : String)
deriving DecidableEq

/-- Python `str(response) if response else "No response"`
(`scpi_gui.py` line 116): both `None` and the empty string are falsy. -/
def display (response : Option String) : String :=
  match response with
  | some s => if s = "" then "No response" else s
  | none => "No response"

/-- State of the worker's `_is_running` flag at a poll point.  A stop
request arriving after `k` commands have completed is modelled by
`stopAfter = some k`: the flag reads false at every poll from that point
on (`SCPIWorker.stop`, `scpi_gui.py` lines 97-99). -/
def isRunning (stopAfter : Option Nat) (executed : Nat) : Bool :=
  match stopAfter with
  | none => true
  | some k => executed < k

/-- The sleep-skip condition of `scpi_gui.py` line 121:
`loop == self.repeat - 1 and cmd == self.commands[-1]`.  Note that the
second conjunct compares the command *text* with the text of the last
list element. -/
def skipSleep (repeatI : Int) (commands : List String) (loop : Nat) (cmd : String) : Bool :=
  ((loop : Int) == repeatI - 1) && (commands.getLast? == some cmd)

/-- The body of the two nested `for` loops of `SCPIWorker.run`
(`scpi_gui.py` lines 101-128), processed over the flattened iteration
list of `(loop index, command)` pairs, threading the
`commands_executed` counter.  `net` resolves the socket behaviour for
each successive `send_command` call. -/
def runIters (net : Nat → Option Conn) (repeatI : Int) (commands : List String)
    (total : Int) (stopAfter : Option Nat) :
    List (Nat × String) → Nat → List Ev
  | [], _ => [Ev.finished]
  | (loop, cmd) :: rest, executed =>
    if isRunning stopAfter executed then
      let o := send_command (net executed) cmd
      match o.result with
      | Except.ok resp =>
          o.writes.map Ev.wrote ++
            Ev.step cmd (display resp) (loop + 1) ::
            Ev.progress (executed + 1) total ::
            ((if skipSleep repeatI commands loop cmd then [] else [Ev.sleep]) ++
              runIters net repeatI commands total stopAfter rest (executed + 1))
      | Except.error e => o.writes.map Ev.wrote ++ [Ev.error e]
    else [Ev.finished]

/-- Python `range(r)` for a possibly non-positive `int` argument:
empty when `r ≤ 0`. -/
def pyRange (r : Int) : List Nat :=
  List.range r.toNat

/-- The flattened iteration space of
`for loop in range(self.repeat): for cmd in self.commands:`. -/
def iterList (repeatI : Int) (commands : List String) : List (Nat × String) :=
  (pyRange repeatI).flatMap (fun loop => commands.map (fun c => (loop, c)))

/-- Shallow embedding of `SCPIWorker.run` (`scpi_gui.py` lines 101-128):
the full ordered effect trace of one worker execution.
`total_commands = len(self.commands) * self.repeat` is computed up
front; the loops then execute with the cooperative stop flag polled at
the top of every iteration. -/
def workerRun (net : Nat → Option Conn) (commands : List String) (repeatI : Int)
    (stopAfter : Option Nat) : List Ev :=
  runIters net repeatI commands ((commands.length : Int) * repeatI) stopAfter
    (iterList repeatI commands) 0

/-- Recognise a `command_sent` (StepResult) event. -/
def isStep : Ev → Bool
  | Ev.step _ _ _ => true
  | _ => false

/-- Recognise a socket-write event. -/
def isWrote : Ev → Bool
  | Ev.wrote _ => true
  | _ => false

/-- Recognise a `time.sleep(interval)` event. -/
def isSleep : Ev → Bool
  | Ev.sleep => true
  | _ => false

/-- Number of StepResult notifications in a trace. -/
def countSteps (tr : List Ev) : Nat := tr.countP isStep

/-- Number of socket writes in a trace. -/
def countWrites (tr : List Ev) : Nat := tr.countP isWrote

/-- Number of interval sleeps in a trace. -/
def countSleeps (tr : List Ev) : Nat := tr.countP isSleep

/-- Project a `progress_updated` event out of a trace element. -/
def progOf : Ev → Option (Nat × Int)
  | Ev.progress a b => some (a, b)
  | _ => none

/-- The sequence of `progress_updated` payloads of a trace, in order. -/
def progressList (tr : List Ev) : List (Nat × Int) := tr.filterMap progOf

/-- A socket behaviour on which `send_command` always succeeds:
`sendall` returns and `recv` (if called) returns a byte string. -/
def connOk (c : Conn) : Prop :=
  c.sendRes = SendRes.ok ∧ ∃ s, c.recvRes = RecvRes.bytes s

/-- A transport on which every `send_command` call of a run succeeds. -/
def netOk (net : Nat → Option Conn) : Prop :=
  ∀ i, ∃ c, net i = some c ∧ connOk c

/-- A concrete always-succeeding socket behaviour, for witnesses. -/
def okConn : Conn := ⟨SendRes.ok, RecvRes.bytes "1"⟩

/-- A concrete always-succeeding transport, for witnesses. -/
def okNet : Nat → Option Conn := fun _ => some okConn

/-- Result of one `SCPIGUI.send_single_command` invocation
(`scpi_gui.py` lines 725-745): rejected with a warning dialog for a
missing connection, rejected for an empty (stripped) input, or the
command was handed to `SCPIInstrument.send_command`. -/
inductive SingleRes where
  | warnNotConnected
  | warnEmptyInput
  | sent (outcome : SendOutcome)
deriving DecidableEq

/-- Shallow embedding of `SCPIGUI.send_single_command` (`scpi_gui.py`
lines 725-745).  The source checks `self.is_connected()` (truthiness of
`self.instrument.sock`, modelled by `sock`) and then that the stripped
input text is non-empty; it never consults `self.worker`, so the
`workerActive` field of the GUI state is ignored — the embedding takes
it as an argument to make that visible. -/
def send_single_command (sock : Option Conn) (_workerActive : Bool) (inputText : String) :
    SingleRes :=
  match sock with
  | none => SingleRes.warnNotConnected
  | some _ =>
    let cmd := pyStrip inputText
    if cmd = "" then SingleRes.warnEmptyInput
    else SingleRes.sent (send_command sock cmd)

/-- Python `ip_str.split('.')` on the character list: split at every `.`,
keeping empty pieces, with `[""]` for the empty string. -/
def splitDot : List Char → List (List Char)
  | [] => [[]]
  | c :: cs =>
    match splitDot cs with
    | [] => [[]]
    | p :: ps => if c = '.' then [] :: p :: ps else (c :: p) :: ps

/-- Python `part.isdigit()` (restricted to ASCII digits): the piece is
non-empty and every character is a decimal digit. -/
def pyIsDigit (p : List Char) : Bool :=
  !p.isEmpty && p.all Char.isDigit

/-- Python `int(part)` for an all-digit piece: the decimal value. -/
def digitsVal (p : List Char) : Nat :=
  p.foldl (fun acc c => acc * 10 + (c.toNat - '0'.toNat)) 0

/-- The per-part test of `SCPIGUI.is_valid_ip` (`scpi_gui.py` lines
770-781): `part.isdigit()` and `0 <= int(part) <= 255` (the lower bound
is automatic for a digit string). -/
def okPart (p : List Char) : Bool :=
  pyIsDigit p && decide (digitsVal p ≤ 255)

/-- Shallow embedding of `SCPIGUI.is_valid_ip` (`scpi_gui.py` lines
770-781): split on `.`, require exactly four parts, each a digit string
with value at most 255. -/
def is_valid_ip (ip_str : String) : Bool :=
  let parts := splitDot ip_str.data
  parts.length == 4 && parts.all okPart

/-- First step of the connect branch of `SCPIGUI.toggle_connection`
(`scpi_gui.py` lines 869-879): either the warning dialog for an invalid
host (no socket is ever created) or the socket connect attempt. -/
inductive ConnectAttempt where
  | warnInvalidIp
  | socketConnect (host : String) (port : Int)
deriving DecidableEq

/-- Shallow embedding of the validation-then-connect ordering in the
connect branch of `SCPIGUI.toggle_connection`: `is_valid_ip` is checked
before `SCPIInstrument(host, port)` / `connect()` are reached. -/
def toggle_connection_connect (host : String) (port : Int) : ConnectAttempt :=
  if is_valid_ip host then ConnectAttempt.socketConnect host port
  else ConnectAttempt.warnInvalidIp

/-- Spec-side notion of one dotted-quad part, from the specification's
words (`spec.md` §4.3: "four dot-separated integers 0-255"): a non-empty
string of decimal digits whose value is at most 255. -/
def isOctet (p : List Char) : Prop :=
  p ≠ [] ∧ (∀ c ∈ p, c.isDigit) ∧ digitsVal p ≤ 255

/-- Spec-side notion of a syntactically valid IPv4 dotted-quad, from the
specification's words: exactly four dot-separated decimal integer
parts, each with value 0-255. -/
def validIPv4 (s : String) : Prop :=
  ∃ a b c d, isOctet a ∧ isOctet b ∧ isOctet c ∧ isOctet d ∧
    s.data = a ++ '.' :: b ++ '.' :: c ++ '.' :: d

/-- Rejoin the pieces produced by `splitDot` with `.` separators
(the inverse used to state what `splitDot` decomposes). -/
def joinDot : List (List Char) → List Char
  | [] => []
  | [p] => p
  | p :: ps => p ++ '.' :: joinDot ps

/-- A Python exception raised by `scpi_backend.py`: either a `NameError`
from resolving an unbound global name, or an `SCPIError` with its
message. -/
inductive PyErr where
  | nameError
  | scpiError (msg : String)
deriving DecidableEq

/-- The global names bound at module level in `src/scpi_backend.py`
(lines 1-11): the three imports `socket`, `time`,
`from typing import List, Tuple, Optional`, and the two classes the
module defines.  No `logger` is imported or defined anywhere in the
module. -/
def backendEnv : List String :=
  ["socket", "time", "List", "Tuple", "Optional", "SCPIError", "SCPIInstrument"]

/-- Python global-name resolution at a call site such as
`logger.info(...)`: succeeds iff the name is bound in the module's
global namespace, otherwise raises `NameError`. -/
def lookupName (env : List String) (n : String) : Except PyErr Unit :=
  if n ∈ env then Except.ok () else Except.error PyErr.nameError

/-- Shallow embedding of `SCPIInstrument.send_command` from
`src/scpi_backend.py` lines 47-88, with every `logger.*` call modelled
as a resolution of the global name `logger` in the module environment
`env` (a failed resolution raises `NameError`; a `NameError` raised
inside the `try` block is caught by `except Exception as e`, whose
handler itself begins with `logger.error(...)` and therefore re-raises
`NameError` when the name is unbound).  The second component is the
list of byte strings actually written on the socket.  The first
`logger.info(f"发送命令: ...")` call precedes `self.sock.sendall(...)`. -/
def backend_send_command (env : List String) (sock : Option Conn) (command : String) :
    Except PyErr String × List String :=
  match sock with
  | none => (Except.error (PyErr.scpiError "未连接到上位机"), [])
  | some conn =>
    let full := command ++ "\n"
    match lookupName env "logger" with
    | Except.error _ =>
        (match lookupName env "logger" with
         | Except.error e2 => (Except.error e2, [])
         | Except.ok _ =>
             (Except.error (PyErr.scpiError ("发送命令 '" ++ command ++ "' 时出错: NameError")), []))
    | Except.ok _ =>
      match conn.sendRes with
      | SendRes.timeout =>
          (match lookupName env "logger" with
           | Except.error e2 => (Except.error e2, [])
           | Except.ok _ => (Except.error (PyErr.scpiError ("命令 '" ++ command ++ "' 超时")), []))
      | SendRes.exn m =>
          (match lookupName env "logger" with
           | Except.error e2 => (Except.error e2, [])
           | Except.ok _ =>
               (Except.error (PyErr.scpiError ("发送命令 '" ++ command ++ "' 时出错: " ++ m)), []))
      | SendRes.ok =>
        if endsWithQmark command then
          match conn.recvRes with
          | RecvRes.bytes data =>
            if data = "" then
              (match lookupName env "logger" with
               | Except.error e2 => (Except.error e2, [full])
               | Except.ok _ => (Except.ok "", [full]))
            else
              (match lookupName env "logger" with
               | Except.error e2 => (Except.error e2, [full])
               | Except.ok _ => (Except.ok (pyStrip data), [full]))
          | RecvRes.timeout =>
              (match lookupName env "logger" with
               | Except.error e2 => (Except.error e2, [full])
               | Except.ok _ => (Except.error (PyErr.scpiError ("命令 '" ++ command ++ "' 超时")), [full]))
          | RecvRes.exn m =>
              (match lookupName env "logger" with
               | Except.error e2 => (Except.error e2, [full])
               | Except.ok _ =>
                   (Except.error (PyErr.scpiError ("发送命令 '" ++ command ++ "' 时出错: " ++ m)), [full]))
        else
          (match lookupName env "logger" with
           | Except.error e2 => (Except.error e2, [full])
           | Except.ok _ => (Except.ok "OK", [full]))

/-- Shallow embedding of `SCPIInstrument.disconnect` from
`src/scpi_backend.py` lines 32-41: with a live socket, `close()`
succeeds, then `logger.info("连接已断开")` resolves `logger`; on failure
the `except Exception` handler's own `logger.error(...)` re-raises
`NameError`; the `finally` clause sets `self.sock = None` on every
path.  Returns the raised exception (if any) and the socket handle
afterwards. -/
def backend_disconnect (env : List String) (sock : Option Conn) :
    Except PyErr Unit × Option Conn :=
  match sock with
  | none => (Except.ok (), none)
  | some _ =>
    (match lookupName env "logger" with
     | Except.error _ =>
        (match lookupName env "logger" with
         | Except.error e2 => Except.error e2
         | Except.ok _ => Except.ok ())
     | Except.ok _ => Except.ok (), none)


theorem netOk_okNet : netOk okNet :=
  fun _ => ⟨okConn, rfl, rfl, "1", rfl⟩

theorem send_command_run_ok (c : Conn) (cmd : String) (hs : c.sendRes = SendRes.ok)
    (s : String) (hr : c.recvRes = RecvRes.bytes s) :
    ∃ resp rd, send_command (some c) cmd = ⟨Except.ok resp, [cmd ++ "\n"], rd, some c⟩ := by
  obtain ⟨cs, cr⟩ := c
  cases hs
  cases hr
  by_cases hq : endsWithQmark cmd
  · exact ⟨if s = "" then none else some (pyStrip s), 1, by simp [send_command, hq]⟩
  · exact ⟨none, 0, by simp [send_command, hq]⟩

theorem runIters_success (net : Nat → Option Conn) (rI : Int) (cmds : List String)
    (tot : Int) (hnet : netOk net) :
    ∀ (its : List (Nat × String)) (e : Nat),
      countSteps (runIters net rI cmds tot none its e) = its.length ∧
      countWrites (runIters net rI cmds tot none its e) = its.length ∧
      countSleeps (runIters net rI cmds tot none its e) =
        its.countP (fun it => !skipSleep rI cmds it.1 it.2) ∧
      (runIters net rI cmds tot none its e).getLast? = some Ev.finished ∧
      (its = [] → runIters net rI cmds tot none its e = [Ev.finished]) ∧
      (its ≠ [] → (progressList (runIters net rI cmds tot none its e)).getLast? =
        some (e + its.length, tot)) := by
  intro its
  induction its with
  | nil =>
      intro e
      refine ⟨?_, ?_, ?_, ?_, ?_, ?_⟩ <;>
        simp [runIters, countSteps, countWrites, countSleeps, progressList, isStep,
          isWrote, isSleep]
  | cons it rest ih =>
      intro e
      obtain ⟨loop, cmd⟩ := it
      obtain ⟨c, hc, hs, s, hr⟩ := hnet e
      obtain ⟨resp, rd, hsend⟩ := send_command_run_ok c cmd hs s hr
      obtain ⟨ih1, ih2, ih3, ih4, ih5, ih6⟩ := ih (e + 1)
      have hrecne : runIters net rI cmds tot none rest (e + 1) ≠ [] := by
        intro hnil
        rw [hnil] at ih4
        simp at ih4
      obtain ⟨y, l', hyl⟩ := List.exists_cons_of_ne_nil hrecne
      cases hsk : skipSleep rI cmds loop cmd with
      | true =>
          have htr : runIters net rI cmds tot none ((loop, cmd) :: rest) e =
              Ev.wrote (cmd ++ "\n") :: Ev.step cmd (display resp) (loop + 1) ::
                Ev.progress (e + 1) tot :: runIters net rI cmds tot none rest (e + 1) := by
            simp [runIters, isRunning, hc, hsend, hsk]
          have hpl : progressList (runIters net rI cmds tot none ((loop, cmd) :: rest) e) =
              (e + 1, tot) :: progressList (runIters net rI cmds tot none rest (e + 1)) := by
            rw [htr]
            simp [progressList, progOf]
          refine ⟨?_, ?_, ?_, ?_, by simp, ?_⟩
          · rw [htr]
            simp only [countSteps, List.countP_cons, isStep] at ih1 ⊢
            simp
            omega
          · rw [htr]
            simp only [countWrites, List.countP_cons, isWrote] at ih2 ⊢
            simp
            omega
          · rw [htr]
            simp only [countSleeps, List.countP_cons, isSleep, hsk] at ih3 ⊢
            simp [hsk]
            omega
          · rw [htr, hyl]
            simp only [List.getLast?_cons_cons]
            rw [← hyl, ih4]
          · intro _
            rw [hpl]
            rcases rest with _ | ⟨it2, rest2⟩
            · rw [ih5 rfl]
              simp [progressList, progOf]
            · have h6 := ih6 (by simp)
              have hplne : progressList (runIters net rI cmds tot none (it2 :: rest2) (e + 1)) ≠ [] := by
                intro hnil
                rw [hnil] at h6
                simp at h6
              obtain ⟨q, ql, hql⟩ := List.exists_cons_of_ne_nil hplne
              rw [hql, List.getLast?_cons_cons, ← hql, h6]
              simp only [Option.some.injEq, Prod.mk.injEq, List.length_cons]
              exact ⟨by omega, trivial⟩
      | false =>
          have htr : runIters net rI cmds tot none ((loop, cmd) :: rest) e =
              Ev.wrote (cmd ++ "\n") :: Ev.step cmd (display resp) (loop + 1) ::
                Ev.progress (e + 1) tot :: Ev.sleep ::
                  runIters net rI cmds tot none rest (e + 1) := by
            simp [runIters, isRunning, hc, hsend, hsk]
          have hpl : progressList (runIters net rI cmds tot none ((loop, cmd) :: rest) e) =
              (e + 1, tot) :: progressList (runIters net rI cmds tot none rest (e + 1)) := by
            rw [htr]
            simp [progressList, progOf]
          refine ⟨?_, ?_, ?_, ?_, by simp, ?_⟩
          · rw [htr]
            simp only [countSteps, List.countP_cons, isStep] at ih1 ⊢
            simp
            omega
          · rw [htr]
            simp only [countWrites, List.countP_cons, isWrote] at ih2 ⊢
            simp
            omega
          · rw [htr]
            simp only [countSleeps, List.countP_cons, isSleep, hsk] at ih3 ⊢
            simp [hsk]
            omega
          · rw [htr, hyl]
            simp only [List.getLast?_cons_cons]
            rw [← hyl, ih4]
          · intro _
            rw [hpl]
            rcases rest with _ | ⟨it2, rest2⟩
            · rw [ih5 rfl]
              simp [progressList, progOf]
            · have h6 := ih6 (by simp)
              have hplne : progressList (runIters net rI cmds tot none (it2 :: rest2) (e + 1)) ≠ [] := by
                intro hnil
                rw [hnil] at h6
                simp at h6
              obtain ⟨q, ql, hql⟩ := List.exists_cons_of_ne_nil hplne
              rw [hql, List.getLast?_cons_cons, ← hql, h6]
              simp only [Option.some.injEq, Prod.mk.injEq, List.length_cons]
              exact ⟨by omega, trivial⟩


theorem runIters_stop (net : Nat → Option Conn) (rI : Int) (cmds : List String)
    (tot : Int) (hnet : netOk net) :
    ∀ (its : List (Nat × String)) (e j : Nat), j < its.length →
      countSteps (runIters net rI cmds tot (some (e + j)) its e) = j ∧
      countWrites (runIters net rI cmds tot (some (e + j)) its e) = j ∧
      (runIters net rI cmds tot (some (e + j)) its e).getLast? = some Ev.finished := by
  intro its
  induction its with
  | nil =>
      intro e j hj
      simp at hj
  | cons it rest ih =>
      intro e j hj
      obtain ⟨loop, cmd⟩ := it
      cases j with
      | zero =>
          have hstop : runIters net rI cmds tot (some (e + 0)) ((loop, cmd) :: rest) e =
              [Ev.finished] := by
            simp [runIters, isRunning]
          rw [hstop]
          refine ⟨?_, ?_, rfl⟩ <;> simp [countSteps, countWrites, isStep, isWrote]
      | succ j =>
          obtain ⟨c, hc, hs, s, hr⟩ := hnet e
          obtain ⟨resp, rd, hsend⟩ := send_command_run_ok c cmd hs s hr
          have hrw : e + (j + 1) = (e + 1) + j := by omega
          obtain ⟨ih1, ih2, ih3⟩ := ih (e + 1) j (by simpa using hj)
          have hrecne : runIters net rI cmds tot (some ((e + 1) + j)) rest (e + 1) ≠ [] := by
            intro hnil
            rw [hnil] at ih3
            simp at ih3
          obtain ⟨y, l', hyl⟩ := List.exists_cons_of_ne_nil hrecne
          cases hsk : skipSleep rI cmds loop cmd with
          | true =>
              have htr : runIters net rI cmds tot (some (e + (j + 1))) ((loop, cmd) :: rest) e =
                  Ev.wrote (cmd ++ "\n") :: Ev.step cmd (display resp) (loop + 1) ::
                    Ev.progress (e + 1) tot ::
                    runIters net rI cmds tot (some ((e + 1) + j)) rest (e + 1) := by
                rw [hrw]
                simp [runIters, isRunning, hc, hsend, hsk]
                omega
              refine ⟨?_, ?_, ?_⟩
              · rw [htr]
                simp only [countSteps, List.countP_cons, isStep] at ih1 ⊢
                simp
                omega
              · rw [htr]
                simp only [countWrites, List.countP_cons, isWrote] at ih2 ⊢
                simp
                omega
              · rw [htr, hyl]
                simp only [List.getLast?_cons_cons]
                rw [← hyl, ih3]
          | false =>
              have htr : runIters net rI cmds tot (some (e + (j + 1))) ((loop, cmd) :: rest) e =
                  Ev.wrote (cmd ++ "\n") :: Ev.step cmd (display resp) (loop + 1) ::
                    Ev.progress (e + 1) tot :: Ev.sleep ::
                    runIters net rI cmds tot (some ((e + 1) + j)) rest (e + 1) := by
                rw [hrw]
                simp [runIters, isRunning, hc, hsend, hsk]
                omega
              refine ⟨?_, ?_, ?_⟩
              · rw [htr]
                simp only [countSteps, List.countP_cons, isStep] at ih1 ⊢
                simp
                omega
              · rw [htr]
                simp only [countWrites, List.countP_cons, isWrote] at ih2 ⊢
                simp
                omega
              · rw [htr, hyl]
                simp only [List.getLast?_cons_cons]
                rw [← hyl, ih3]

theorem iterList_length (rI : Int) (cmds : List String) :
    (iterList rI cmds).length = rI.toNat * cmds.length := by
  rw [iterList, pyRange, List.length_flatMap]
  have hmap : List.map (List.length ∘ fun loop => List.map (fun c => (loop, c)) cmds)
      (List.range rI.toNat) = List.replicate rI.toNat cmds.length := by
    apply List.eq_replicate_iff.mpr
    constructor
    · simp
    · intro b hb
      simp only [List.mem_map] at hb
      obtain ⟨j, _, hj⟩ := hb
      simp [← hj, Function.comp]
  rw [hmap, List.sum_replicate, smul_eq_mul]

theorem iterList_nil (rI : Int) : iterList rI [] = [] := by
  simp [iterList]

theorem iterList_eq_nil_iff (rI : Int) (cmds : List String) (hr : 1 ≤ rI) :
    iterList rI cmds = [] ↔ cmds = [] := by
  rw [← List.length_eq_zero, iterList_length, ← List.length_eq_zero]
  have hT : 1 ≤ rI.toNat := by omega
  rw [Nat.mul_eq_zero]
  omega

theorem flatMap_full_count (rI : Int) (cmds : List String) (L : List Nat)
    (hL : ∀ j ∈ L, ((j : Int) ≠ rI - 1)) :
    (L.flatMap (fun loop => cmds.map (fun c => (loop, c)))).countP
      (fun it => !skipSleep rI cmds it.1 it.2) = L.length * cmds.length := by
  induction L with
  | nil => simp
  | cons j L ih =>
      have hj : ((j : Int) ≠ rI - 1) := hL j (by simp)
      have htail : ∀ x ∈ L, ((x : Int) ≠ rI - 1) := fun x hx => hL x (by simp [hx])
      have hchunk : (cmds.map (fun c => (j, c))).countP
          (fun it => !skipSleep rI cmds it.1 it.2) = cmds.length := by
        rw [List.countP_map]
        apply List.countP_eq_length.mpr
        intro a _
        simp [skipSleep, hj]
      simp only [List.flatMap_cons, List.countP_append, ih htail, hchunk, List.length_cons]
      ring

theorem iterList_sleep_count (rI : Int) (cmds : List String) (l : String)
    (hr : 1 ≤ rI) (hl : cmds.getLast? = some l) :
    (iterList rI cmds).countP (fun it => !skipSleep rI cmds it.1 it.2) + cmds.count l =
      rI.toNat * cmds.length := by
  obtain ⟨S, hS⟩ : ∃ S, rI.toNat = S + 1 := ⟨rI.toNat - 1, by omega⟩
  have hSr : ((S : Int)) = rI - 1 := by
    have h0 : ((rI.toNat : Int)) = rI := Int.toNat_of_nonneg (by omega)
    omega
  have hpre : ∀ j ∈ List.range S, ((j : Int) ≠ rI - 1) := by
    intro j hj
    have : j < S := List.mem_range.mp hj
    omega
  have hchunk : ((cmds.map (fun c => (S, c))).countP
      (fun it => !skipSleep rI cmds it.1 it.2)) + cmds.count l = cmds.length := by
    rw [List.countP_map]
    have hcong : cmds.countP ((fun it => !skipSleep rI cmds it.1 it.2) ∘ (fun c => (S, c))) =
        cmds.countP (fun c => !(c == l)) := by
      apply List.countP_congr
      intro x _
      simp [skipSleep, hSr, hl, beq_iff_eq]
      exact not_congr eq_comm
    rw [hcong]
    have hlen := List.length_eq_countP_add_countP (fun c => c == l) (l := cmds)
    have hcnt : cmds.count l = cmds.countP (fun c => c == l) := rfl
    have hcompl : cmds.countP (fun c => !(c == l)) =
        cmds.countP (fun a => decide ¬((a == l) = true)) := by
      apply List.countP_congr
      intro x _
      simp
    omega
  rw [iterList, pyRange, hS, List.range_succ, List.flatMap_append, List.countP_append]
  rw [flatMap_full_count rI cmds _ hpre, List.length_range]
  simp only [List.flatMap_cons, List.flatMap_nil, List.append_nil]
  rw [Nat.succ_mul]
  linarith [hchunk]

theorem splitDot_ne_nil (l : List Char) : splitDot l ≠ [] := by
  induction l with
  | nil => simp [splitDot]
  | cons c cs ih =>
      cases h : splitDot cs with
      | nil => exact absurd h ih
      | cons p ps =>
          simp only [splitDot, h]
          split <;> simp

theorem joinDot_splitDot (l : List Char) : joinDot (splitDot l) = l := by
  induction l with
  | nil => rfl
  | cons c cs ih =>
      cases h : splitDot cs with
      | nil => exact absurd h (splitDot_ne_nil cs)
      | cons p ps =>
          rw [h] at ih
          by_cases hc : c = '.'
          · subst hc
            simp only [splitDot, h, if_pos rfl]
            cases ps with
            | nil => simp [joinDot] at ih ⊢; simp [ih]
            | cons q qs => simp [joinDot] at ih ⊢; simp [ih]
          · simp only [splitDot, h, if_neg hc]
            cases ps with
            | nil => simp [joinDot] at ih ⊢; simp [ih]
            | cons q qs => simp [joinDot] at ih ⊢; simp [ih]

theorem splitDot_no_dot (l : List Char) (h : '.' ∉ l) : splitDot l = [l] := by
  induction l with
  | nil => rfl
  | cons c cs ih =>
      have hc : c ≠ '.' := fun hh => h (by simp [hh])
      have ih' := ih (fun hh => h (by simp [hh]))
      simp [splitDot, ih', hc]

theorem splitDot_append (a rest : List Char) (ha : '.' ∉ a) :
    splitDot (a ++ '.' :: rest) = a :: splitDot rest := by
  induction a with
  | nil =>
      simp only [List.nil_append]
      cases hrest : splitDot rest with
      | nil => exact absurd hrest (splitDot_ne_nil rest)
      | cons p ps => simp [splitDot, hrest]
  | cons x xs ih =>
      have hx : x ≠ '.' := fun hh => ha (by simp [hh])
      have ih' := ih (fun hh => ha (by simp [hh]))
      simp [splitDot, ih', hx]

theorem isDigit_ne_dot (c : Char) (h : c.isDigit = true) : c ≠ '.' := by
  intro hh
  rw [hh] at h
  exact absurd h (by decide)

theorem okPart_iff (p : List Char) : okPart p = true ↔ isOctet p := by
  simp only [okPart, pyIsDigit, isOctet, Bool.and_eq_true, Bool.not_eq_true',
    List.all_eq_true, decide_eq_true_eq]
  rw [show (p.isEmpty = false) ↔ p ≠ [] from by simp]
  tauto

theorem is_valid_ip_iff (s : String) : is_valid_ip s = true ↔ validIPv4 s := by
  constructor
  · intro h
    simp only [is_valid_ip, Bool.and_eq_true, beq_iff_eq, List.all_eq_true] at h
    obtain ⟨hlen, hall⟩ := h
    obtain ⟨a, b, c, d, hsp⟩ : ∃ a b c d, splitDot s.data = [a, b, c, d] := by
      rcases h4 : splitDot s.data with _ | ⟨a, _ | ⟨b, _ | ⟨c, _ | ⟨d, _ | ⟨e, tl⟩⟩⟩⟩⟩ <;>
        rw [h4] at hlen <;> simp at hlen
      exact ⟨a, b, c, d, rfl⟩
    have hmem : ∀ p ∈ [a, b, c, d], okPart p = true := by
      intro p hp
      exact hall p (by rw [hsp]; exact hp)
    refine ⟨a, b, c, d, (okPart_iff a).mp (hmem a (by simp)),
      (okPart_iff b).mp (hmem b (by simp)), (okPart_iff c).mp (hmem c (by simp)),
      (okPart_iff d).mp (hmem d (by simp)), ?_⟩
    have hj := joinDot_splitDot s.data
    rw [hsp] at hj
    rw [← hj]
    simp [joinDot]
  · rintro ⟨a, b, c, d, ha, hb, hc, hd, heq⟩
    have hna : '.' ∉ a := fun hm => isDigit_ne_dot '.' (ha.2.1 '.' hm) rfl
    have hnb : '.' ∉ b := fun hm => isDigit_ne_dot '.' (hb.2.1 '.' hm) rfl
    have hnc : '.' ∉ c := fun hm => isDigit_ne_dot '.' (hc.2.1 '.' hm) rfl
    have hnd : '.' ∉ d := fun hm => isDigit_ne_dot '.' (hd.2.1 '.' hm) rfl
    have hshape : a ++ '.' :: b ++ '.' :: c ++ '.' :: d =
        a ++ '.' :: (b ++ '.' :: (c ++ '.' :: d)) := by
      simp [List.append_assoc]
    have hsplit : splitDot (a ++ '.' :: b ++ '.' :: c ++ '.' :: d) = [a, b, c, d] := by
      rw [hshape, splitDot_append _ _ hna, splitDot_append _ _ hnb, splitDot_append _ _ hnc,
        splitDot_no_dot _ hnd]
    simp only [is_valid_ip, heq, hsplit, Bool.and_eq_true, beq_iff_eq, List.all_eq_true]
    refine ⟨rfl, ?_⟩
    intro p hp
    simp only [List.mem_cons, List.not_mem_nil, or_false] at hp
    rcases hp with h | h | h | h <;> rw [h]
    · exact (okPart_iff a).mpr ha
    · exact (okPart_iff b).mpr hb
    · exact (okPart_iff c).mpr hc
    · exact (okPart_iff d).mpr hd

/-- C1 counterexample.  The claim states that `send` classifies a command
as a query iff its last non-whitespace character is `?` (trim-then-check),
and in particular that `"TRIG? "` is still a query.  On the code this is
false: `send_command` uses `command.endswith('?')` with no trimming, so
for `"TRIG? "` the spec-side trim-then-check rule says query while the
code attempts no read and returns the non-query marker `None`. -/
theorem claim_C1_counterexample :
    isQuerySpec "TRIG? " = true ∧
    (send_command (some okConn) "TRIG? ").reads = 0 ∧
    (send_command (some okConn) "TRIG? ").result = Except.ok none := by
  decide

/-- C1 (amended): `send` classifies a command as a query — i.e. attempts
exactly one socket read — iff the literal last character of the command
is `?`, with no whitespace trimming.  `"MEAS:VOLT?"` is a query,
`"MEAS:VOLT 5"` is not, and `"TRIG? "` (trailing space) is NOT a query. -/
theorem claim_C1 (conn : Conn) (c : String) (hs : conn.sendRes = SendRes.ok) :
    ((send_command (some conn) c).reads = 1 ↔ endsWithQmark c = true) ∧
    ((send_command (some conn) c).reads = 0 ↔ endsWithQmark c = false) ∧
    endsWithQmark "MEAS:VOLT?" = true ∧
    endsWithQmark "MEAS:VOLT 5" = false ∧
    endsWithQmark "TRIG? " = false := by
  obtain ⟨cs, cr⟩ := conn
  cases hs
  refine ⟨?_, ?_, by decide, by decide, by decide⟩ <;>
    cases hq : endsWithQmark c <;> cases cr <;> simp [send_command, hq]

/-- C1 witness: the amended theorem evaluated at the concrete examples. -/
theorem claim_C1_witness :
    ((send_command (some okConn) "MEAS:VOLT?").reads = 1 ↔
      endsWithQmark "MEAS:VOLT?" = true) ∧
    ((send_command (some okConn) "MEAS:VOLT 5").reads = 0 ↔
      endsWithQmark "MEAS:VOLT 5" = false) :=
  ⟨(claim_C1 okConn "MEAS:VOLT?" rfl).1, (claim_C1 okConn "MEAS:VOLT 5" rfl).2.1⟩

/-- C2 counterexample.  The claim states a successful run performs exactly
`r*n - 1` interval sleeps, with every command other than the very last —
"including any earlier command whose text happens to equal the last
command's text" — followed by a sleep.  For `commands = ["A", "A"]`,
`repeat = 1` the claim predicts `2*1 - 1 = 1` sleep, but the code's skip
condition `cmd == self.commands[-1]` compares by text, so the first `"A"`
of the final loop also skips its sleep: the run performs 0 sleeps over
its 2 steps. -/
theorem claim_C2_counterexample :
    countSleeps (workerRun okNet ["A", "A"] 1 none) = 0 ∧
    countSteps (workerRun okNet ["A", "A"] 1 none) = 2 := by
  decide

/-- C2 (amended): a successful sequence run with `n ≥ 1` commands and
repeat `r ≥ 1` performs `r*n - m` interval sleeps, where `m` is the
number of positions in the command list whose text equals the last
command's text (the skip condition applies throughout the final loop to
every command equal-by-text to the last one); when the last command's
text occurs exactly once this is `r*n - 1`. -/
theorem claim_C2 (net : Nat → Option Conn) (cmds : List String) (r : Int) (l : String)
    (hnet : netOk net) (hr : 1 ≤ r) (hl : cmds.getLast? = some l) :
    countSleeps (workerRun net cmds r none) + cmds.count l = r.toNat * cmds.length ∧
    (cmds.count l = 1 →
      countSleeps (workerRun net cmds r none) = r.toNat * cmds.length - 1) := by
  have hmain := (runIters_success net r cmds ((cmds.length : Int) * r) hnet
      (iterList r cmds) 0).2.2.1
  have hsc := iterList_sleep_count r cmds l hr hl
  have h1 : countSleeps (workerRun net cmds r none) + cmds.count l = r.toNat * cmds.length := by
    simp only [workerRun]
    rw [hmain]
    exact hsc
  exact ⟨h1, fun hcount => by omega⟩

/-- C2 witness: for `commands = ["A", "B"]`, `repeat = 2` (last command
text unique) the run performs `2*2 - 1 = 3` sleeps. -/
theorem claim_C2_witness :
    countSleeps (workerRun okNet ["A", "B"] 2 none) + ["A", "B"].count "B" = 4 ∧
    countSleeps (workerRun okNet ["A", "B"] 2 none) = 3 := by
  have h := claim_C2 okNet ["A", "B"] 2 "B" netOk_okNet (by norm_num) (by decide)
  refine ⟨by simpa using h.1, by simpa using h.2 (by decide)⟩

/-- C3 counterexample.  The claim states a stopped run terminates in a
distinct terminal state `Stopped`, distinguishable by observers from
`Completed`.  On the code both paths emit the very same `finished`
signal: stopping the 5-command, repeat-1 run after command 2 produces a
trace whose terminal event equals the terminal event of the uninterrupted
run (`Ev.finished` in both cases); the worker has no other terminal
signal for this case, so no observer can tell Stopped from Completed. -/
theorem claim_C3_counterexample :
    (workerRun okNet ["C1", "C2", "C3", "C4", "C5"] 1 (some 2)).getLast? =
      (workerRun okNet ["C1", "C2", "C3", "C4", "C5"] 1 none).getLast? ∧
    (workerRun okNet ["C1", "C2", "C3", "C4", "C5"] 1 (some 2)).getLast? =
      some Ev.finished := by
  decide

/-- C3 (amended): if a stop request is made after the `k`-th command of a
run has completed (`k < r*n`), the run emits exactly `k` StepResult
notifications, performs exactly `k` socket writes (none after the stop),
and terminates by emitting the same `finished` signal that an
uninterrupted run emits — only a transport failure (`error_occurred`) is
distinguishable; there is no distinct `Stopped` state. -/
theorem claim_C3 (net : Nat → Option Conn) (cmds : List String) (r : Int) (k : Nat)
    (hnet : netOk net) (hk : k < r.toNat * cmds.length) :
    countSteps (workerRun net cmds r (some k)) = k ∧
    countWrites (workerRun net cmds r (some k)) = k ∧
    (workerRun net cmds r (some k)).getLast? = some Ev.finished ∧
    (workerRun net cmds r none).getLast? = some Ev.finished := by
  have hlen : k < (iterList r cmds).length := by
    rw [iterList_length]
    exact hk
  have h := runIters_stop net r cmds ((cmds.length : Int) * r) hnet (iterList r cmds) 0 k hlen
  simp only [Nat.zero_add] at h
  have hdone := (runIters_success net r cmds ((cmds.length : Int) * r) hnet
      (iterList r cmds) 0).2.2.2.1
  simp only [workerRun]
  exact ⟨h.1, h.2.1, h.2.2, hdone⟩

/-- C3 witness: the amended theorem at the claim's own scenario — stop
after command 2 of 5, repeat 1. -/
theorem claim_C3_witness :
    countSteps (workerRun okNet ["C1", "C2", "C3", "C4", "C5"] 1 (some 2)) = 2 ∧
    countWrites (workerRun okNet ["C1", "C2", "C3", "C4", "C5"] 1 (some 2)) = 2 ∧
    (workerRun okNet ["C1", "C2", "C3", "C4", "C5"] 1 (some 2)).getLast? = some Ev.finished := by
  have h := claim_C3 okNet ["C1", "C2", "C3", "C4", "C5"] 1 2 netOk_okNet (by decide)
  exact ⟨h.1, h.2.1, h.2.2.1⟩

/-- C4 counterexample.  The claim states that while a sequence run's
worker is active, `sendOne` is rejected without writing any bytes.  On
the code `send_single_command` never consults the worker: with a
connected socket and an active worker (flag `true`) the single-command
path proceeds to `send_command`, which writes the newline-terminated
bytes on the shared socket. -/
theorem claim_C4_counterexample :
    send_single_command (some okConn) true "SYST:LOCK" =
      SingleRes.sent (send_command (some okConn) "SYST:LOCK") ∧
    (send_command (some okConn) "SYST:LOCK").writes = ["SYST:LOCK\n"] := by
  decide

/-- C4 (amended): `send_single_command` is rejected only when no
connection exists or when the stripped input text is empty; whether a
sequence worker is active plays no role — the result is identical for
an active and an inactive worker, and with a connection and non-empty
text the command is handed to `send_command` (which writes on the
shared socket) even while a run is in flight. -/
theorem claim_C4 (sock : Option Conn) (w : Bool) (text : String) :
    (sock = none → send_single_command sock w text = SingleRes.warnNotConnected) ∧
    (sock ≠ none → pyStrip text = "" →
      send_single_command sock w text = SingleRes.warnEmptyInput) ∧
    (sock ≠ none → pyStrip text ≠ "" →
      send_single_command sock w text = SingleRes.sent (send_command sock (pyStrip text))) ∧
    send_single_command sock true text = send_single_command sock false text := by
  cases sock with
  | none =>
      exact ⟨fun _ => rfl, fun h => absurd rfl h, fun h => absurd rfl h, rfl⟩
  | some c =>
      refine ⟨?_, ?_, ?_, rfl⟩
      · intro h
        exact absurd h (by simp)
      · intro _ he
        simp [send_single_command, he]
      · intro _ he
        simp [send_single_command, he]

/-- C4 witness: the amended theorem at a concrete connected state with
an active worker and the input `" *RST "`. -/
theorem claim_C4_witness :
    send_single_command (some okConn) true " *RST " =
      SingleRes.sent (send_command (some okConn) (pyStrip " *RST ")) :=
  (claim_C4 (some okConn) true " *RST ").2.2.1 (by simp) (by decide)

/-- C5: for every sequence run with `n ≥ 1` commands and repeat `r ≥ 1`
finishing with no transport failure and no stop request, exactly `r*n`
StepResult notifications are emitted and the final Progress notification
is `(r*n, r*n)`; for `n = 0` the run emits no StepResult and no Progress
and goes directly to the `finished` terminal signal. -/
theorem claim_C5 (net : Nat → Option Conn) (cmds : List String) (r : Int)
    (hnet : netOk net) (hr : 1 ≤ r) :
    countSteps (workerRun net cmds r none) = r.toNat * cmds.length ∧
    (workerRun net cmds r none).getLast? = some Ev.finished ∧
    (cmds ≠ [] →
      (progressList (workerRun net cmds r none)).getLast? =
        some (r.toNat * cmds.length, (cmds.length : Int) * r)) ∧
    (cmds = [] → workerRun net cmds r none = [Ev.finished] ∧
      countSteps (workerRun net cmds r none) = 0 ∧
      progressList (workerRun net cmds r none) = []) := by
  obtain ⟨h1, h2, h3, h4, h5, h6⟩ := runIters_success net r cmds ((cmds.length : Int) * r)
    hnet (iterList r cmds) 0
  simp only [workerRun]
  refine ⟨?_, h4, ?_, ?_⟩
  · rw [h1, iterList_length]
  · intro hne
    have hitne : iterList r cmds ≠ [] := by
      rw [Ne, iterList_eq_nil_iff r cmds hr]
      exact hne
    have h6' := h6 hitne
    rw [iterList_length] at h6'
    simpa using h6'
  · intro hnil
    have hit : iterList r cmds = [] := (iterList_eq_nil_iff r cmds hr).mpr hnil
    have h5' := h5 hit
    refine ⟨h5', ?_, ?_⟩
    · rw [h5']
      simp [countSteps, isStep]
    · rw [h5']
      simp [progressList, progOf]

/-- C5 witness: `commands = ["A", "B"]`, `repeat = 2` — 4 steps and the
final progress `(4, 4)`. -/
theorem claim_C5_witness :
    countSteps (workerRun okNet ["A", "B"] 2 none) = 4 ∧
    (workerRun okNet ["A", "B"] 2 none).getLast? = some Ev.finished ∧
    (progressList (workerRun okNet ["A", "B"] 2 none)).getLast? = some (4, 4) := by
  have h := claim_C5 okNet ["A", "B"] 2 netOk_okNet (by norm_num)
  refine ⟨by simpa using h.1, h.2.1, ?_⟩
  have h3 := h.2.2.1 (by simp)
  simpa using h3

/-- C6 counterexample.  The claim states the execution engine clamps
`repeat` to `≥ 1`, so `repeat = 0` with `commands = ["A"]` should behave
like `repeat = 1` and execute the command once.  On the code
`range(self.repeat)` is simply empty for `repeat = 0`: the run performs
0 steps while `repeat = 1` performs 1. -/
theorem claim_C6_counterexample :
    countSteps (workerRun okNet ["A"] 0 none) = 0 ∧
    countSteps (workerRun okNet ["A"] 1 none) = 1 := by
  decide

/-- C6 (amended): the execution engine does not clamp `repeat`; for every
`repeat ≤ 0` the loop body never runs and the worker emits nothing but
the `finished` signal (no steps, no writes, no sleeps).  A repeat value
of at least 1 is guaranteed only by the GUI spin box (`setRange(1, 1000)`),
not by the engine. -/
theorem claim_C6 (net : Nat → Option Conn) (cmds : List String) (r : Int)
    (sa : Option Nat) (hr : r ≤ 0) :
    workerRun net cmds r sa = [Ev.finished] := by
  have h0 : r.toNat = 0 := by omega
  simp [workerRun, iterList, pyRange, h0, runIters]

/-- C6 witness: the amended theorem at `repeat = 0`, `commands = ["A"]`. -/
theorem claim_C6_witness :
    workerRun okNet ["A"] 0 none = [Ev.finished] :=
  claim_C6 okNet ["A"] 0 none (by norm_num)

/-- C7: `is_valid_ip` accepts a host string iff it is a syntactically
valid IPv4 dotted-quad — exactly four dot-separated decimal integer
parts, each with value 0-255 (the spec-side predicate `validIPv4`);
`"999.1.1.1"` is rejected, `"192.168.1.1"` accepted; and in
`toggle_connection` the validation verdict is reached before any socket
object is created, so a malformed host produces only the warning dialog
and never a connect attempt. -/
theorem claim_C7 :
    (∀ s, is_valid_ip s = true ↔ validIPv4 s) ∧
    is_valid_ip "999.1.1.1" = false ∧
    is_valid_ip "192.168.1.1" = true ∧
    (∀ host port, is_valid_ip host = false →
      toggle_connection_connect host port = ConnectAttempt.warnInvalidIp) ∧
    (∀ host port, is_valid_ip host = true →
      toggle_connection_connect host port = ConnectAttempt.socketConnect host port) := by
  refine ⟨is_valid_ip_iff, by decide, by decide, ?_, ?_⟩
  · intro host port h
    simp [toggle_connection_connect, h]
  · intro host port h
    simp [toggle_connection_connect, h]

/-- C7 witness: the equivalence and the gate evaluated at the claim's two
concrete hosts. -/
theorem claim_C7_witness :
    validIPv4 "192.168.1.1" ∧
    toggle_connection_connect "999.1.1.1" 8805 = ConnectAttempt.warnInvalidIp :=
  ⟨(claim_C7.1 "192.168.1.1").mp (by decide),
   claim_C7.2.2.2.1 "999.1.1.1" 8805 (by decide)⟩

/-- C8: on a connected instrument, a `socket.timeout` raised by the read
of a query makes `send_command` fail with an `SCPIError` whose message
names the command (`命令 '<cmd>' 超时`); any other socket error during
write or read fails with an `SCPIError` naming the command and the
underlying cause (`发送命令 '<cmd>' 时出错: <cause>`); and in every case
the socket handle is left unchanged — the connection stays open and the
caller decides whether to disconnect. -/
theorem claim_C8 (conn : Conn) (c : String) :
    (send_command (some conn) c).sockAfter = some conn ∧
    (conn.sendRes = SendRes.ok → endsWithQmark c = true → conn.recvRes = RecvRes.timeout →
      (send_command (some conn) c).result = Except.error ("命令 '" ++ c ++ "' 超时")) ∧
    (∀ m, conn.sendRes = SendRes.exn m →
      (send_command (some conn) c).result =
        Except.error ("发送命令 '" ++ c ++ "' 时出错: " ++ m)) ∧
    (∀ m, conn.sendRes = SendRes.ok → endsWithQmark c = true → conn.recvRes = RecvRes.exn m →
      (send_command (some conn) c).result =
        Except.error ("发送命令 '" ++ c ++ "' 时出错: " ++ m)) := by
  obtain ⟨cs, cr⟩ := conn
  refine ⟨?_, ?_, ?_, ?_⟩
  · cases cs <;> cases cr <;> by_cases hq : endsWithQmark c <;> simp [send_command, hq]
  · intro h1 h2 h3
    cases h1
    cases h3
    simp [send_command, h2]
  · intro m h1
    cases h1
    simp [send_command]
  · intro m h1 h2 h3
    cases h1
    cases h3
    simp [send_command, h2]

/-- C8 witness: a query whose read times out — the failure names the
command and leaves the socket handle in place. -/
theorem claim_C8_witness :
    (send_command (some ⟨SendRes.ok, RecvRes.timeout⟩) "VOLT?").result =
      Except.error ("命令 'VOLT?' 超时") ∧
    (send_command (some ⟨SendRes.ok, RecvRes.timeout⟩) "VOLT?").sockAfter =
      some ⟨SendRes.ok, RecvRes.timeout⟩ :=
  ⟨(claim_C8 ⟨SendRes.ok, RecvRes.timeout⟩ "VOLT?").2.1 rfl (by decide) rfl,
   (claim_C8 ⟨SendRes.ok, RecvRes.timeout⟩ "VOLT?").1⟩

/-- C9 counterexample.  The claim states the synthetic success marker of
a non-query send is distinct from the no-data outcome of a query.  In
the GUI implementation both are the same value: a non-query send returns
`None`, and a query whose `recv` yields zero bytes also returns `None`. -/
theorem claim_C9_counterexample :
    (send_command (some ⟨SendRes.ok, RecvRes.bytes ""⟩) "SYST:REM").result = Except.ok none ∧
    (send_command (some ⟨SendRes.ok, RecvRes.bytes ""⟩) "READ?").result = Except.ok none := by
  decide

/-- C9 (amended): for every non-query command on a connected instrument,
`send_command` writes the newline-terminated command bytes, attempts no
read, and returns the fixed marker `None` — a value that *coincides*
with (is not distinct from) the outcome of a query whose peer returned
zero bytes.  (The unused `scpi_backend.py` module documents the distinct
markers `"OK"` vs `""`, but its send path is unreachable — see C10.) -/
theorem claim_C9 (conn : Conn) (c : String) (hs : conn.sendRes = SendRes.ok)
    (hq : endsWithQmark c = false) :
    send_command (some conn) c = ⟨Except.ok none, [c ++ "\n"], 0, some conn⟩ ∧
    (∀ q conn2, conn2.sendRes = SendRes.ok → conn2.recvRes = RecvRes.bytes "" →
      endsWithQmark q = true → (send_command (some conn2) q).result = Except.ok none) := by
  constructor
  · obtain ⟨cs, cr⟩ := conn
    cases hs
    simp [send_command, hq]
  · intro q conn2 h1 h2 hq2
    obtain ⟨cs2, cr2⟩ := conn2
    cases h1
    cases h2
    simp [send_command, hq2]

/-- C9 witness: the non-query `"SYST:REM"` — one write, no read, marker
`None`, equal to the empty-response query outcome of `"READ?"`. -/
theorem claim_C9_witness :
    send_command (some okConn) "SYST:REM" =
      ⟨Except.ok none, ["SYST:REM\n"], 0, some okConn⟩ ∧
    (send_command (some ⟨SendRes.ok, RecvRes.bytes ""⟩) "READ?").result = Except.ok none := by
  have h := claim_C9 okConn "SYST:REM" rfl (by decide)
  exact ⟨h.1, h.2 "READ?" ⟨SendRes.ok, RecvRes.bytes ""⟩ rfl rfl (by decide)⟩

/-- C10: in `src/scpi_backend.py` the global name `logger` is never
imported or defined, so on a connected instrument every
`send_command` call raises `NameError` (from the `logger.info` call that
precedes `sendall`; the `except Exception` handler's own `logger.error`
re-raises it) without writing any bytes, making every documented success
value (response text, `""`, `"OK"`) unreachable; and `disconnect` on a
live socket likewise raises `NameError` while its `finally` clause still
sets the socket handle to `None`. -/
theorem claim_C10 (conn : Conn) (c : String) :
    backendEnv.contains "logger" = false ∧
    backend_send_command backendEnv (some conn) c = (Except.error PyErr.nameError, []) ∧
    backend_disconnect backendEnv (some conn) = (Except.error PyErr.nameError, none) :=
  ⟨by decide, rfl, rfl⟩
